import Mathlib

/-!
Shallow embedding of the momentum-ignition trading bot
(`src/indicators.py`, `src/strategy.py`, `src/optimizer.py`), used to verify
the claims of the specification against the code.

Conventions:
* prices are rationals (`ℚ`); pandas `NaN` entries are modelled as `none`
  in `Option ℚ` valued series (every comparison against `none` is `false`,
  matching NaN comparison semantics);
* a pandas `DataFrame` of OHLC data is a `List Bar`; the bar at list index
  `i` is the bar with positional index `i`, and `timestamp` is that index;
* each indicator returns a series aligned one-to-one with the input bars.
-/

namespace TradingBot

/-- An OHLC bar. The strategy and its indicators read only the
`High`, `Low` and `Close` columns, so only those are modelled. -/
structure Bar where
  high : ℚ
  low : ℚ
  close : ℚ
deriving DecidableEq

/-- The window `xs[i+1-w : i+1]` of the last `w` elements ending at index `i`,
as used by a pandas `rolling(window=w)` aggregation. -/
def windowAt (xs : List α) (w i : ℕ) : List α := (xs.take (i + 1)).drop (i + 1 - w)

/-- Minimum of a list, `none` on the empty list (mirrors `Series.rolling.min`
on a full window). -/
def listMin : List ℚ → Option ℚ
  | [] => none
  | x :: xs => some (xs.foldl min x)

/-- Maximum of a list, `none` on the empty list. -/
def listMax : List ℚ → Option ℚ
  | [] => none
  | x :: xs => some (xs.foldl max x)

/-- `Series.rolling(window=w).min()`: `NaN` for the first `w - 1` positions,
then the minimum over the trailing window of `w` values. -/
def rollingMinO (w : ℕ) (xs : List ℚ) : List (Option ℚ) :=
  (List.range xs.length).map (fun i =>
    if i + 1 < w then none else listMin (windowAt xs w i))

/-- `Series.rolling(window=w).max()`. -/
def rollingMaxO (w : ℕ) (xs : List ℚ) : List (Option ℚ) :=
  (List.range xs.length).map (fun i =>
    if i + 1 < w then none else listMax (windowAt xs w i))

/-- `Series.rolling(window=w).mean()` over a series that may itself contain
`NaN`s: the result is `NaN` while the window is not full or whenever any
value inside the window is `NaN` (pandas propagates `NaN` with the default
`min_periods = window`). -/
def rollingMeanO (w : ℕ) (xs : List (Option ℚ)) : List (Option ℚ) :=
  (List.range xs.length).map (fun i =>
    if i + 1 < w then none
    else
      let win := windowAt xs w i
      if win.all Option.isSome then some (win.reduceOption.sum / (w : ℚ))
      else none)

/-- `Series.ewm(span=span, adjust=False).mean()` on a fully defined series:
the recursive EMA `e₀ = x₀`, `eᵢ = (1-α)·eᵢ₋₁ + α·xᵢ` with `α = 2/(span+1)`,
seeded by the first value. -/
def ewm (span : ℕ) (xs : List ℚ) : List ℚ :=
  let a : ℚ := 2 / ((span : ℚ) + 1)
  (xs.foldl (fun acc x =>
    match acc with
    | [] => [x]
    | y :: _ => ((1 - a) * y + a * x) :: acc) []).reverse

/-- True-range series of `calculate_atr`: `tr₀ = high₀ - low₀` (the shifted
previous close is `NaN` at index 0 and `DataFrame.max(axis=1)` skips `NaN`),
`trᵢ = max(high-low, |high-prevClose|, |low-prevClose|)` afterwards. -/
def trueRanges (bars : List Bar) : List ℚ :=
  (List.range bars.length).map (fun i =>
    let b := (bars.get? i).getD ⟨0, 0, 0⟩
    if i = 0 then b.high - b.low
    else
      let cp := ((bars.get? (i - 1)).getD ⟨0, 0, 0⟩).close
      max (b.high - b.low) (max (abs (b.high - cp)) (abs (b.low - cp))))

/-- `calculate_atr` of `src/indicators.py`: EWM (span = period,
adjust=False) of the true range.  Defined at every index. -/
def calculate_atr (bars : List Bar) (period : ℕ) : List ℚ :=
  ewm period (trueRanges bars)

/-- `calculate_roc` of `src/indicators.py`:
`Close.pct_change(periods=period) * 100`; `NaN` (here `none`) for the first
`period` positions.  A zero close `period` bars back makes pandas produce
`±inf`/`NaN`; it is modelled as an unavailable value (no claim depends on a
zero price, and every comparison treats it as false either way). -/
def calculate_roc (bars : List Bar) (period : ℕ) : List (Option ℚ) :=
  let cs := bars.map Bar.close
  (List.range cs.length).map (fun i =>
    if i < period then none
    else
      let prev := (cs.get? (i - period)).getD 0
      if prev = 0 then none
      else some ((((cs.get? i).getD 0) / prev - 1) * 100))

/-- `calculate_sma` of `src/indicators.py`: rolling mean of the close. -/
def calculate_sma (bars : List Bar) (period : ℕ) : List (Option ℚ) :=
  rollingMeanO period (bars.map (fun b => some b.close))

/-- The raw (fast) `%K` series of `calculate_stochastic` after
`replace([inf, -inf], nan).fillna(0)`: a TOTAL series in which both a
zero high-low range and an insufficient-history (`NaN`) position are
reported as the number `0`. -/
def stochFastK (bars : List Bar) (kPeriod : ℕ) : List ℚ :=
  let hh := rollingMaxO kPeriod (bars.map Bar.high)
  let ll := rollingMinO kPeriod (bars.map Bar.low)
  (List.range bars.length).map (fun i =>
    match (hh.get? i).join, (ll.get? i).join with
    | some h, some l =>
        if h - l = 0 then 0
        else 100 * ((((bars.get? i).getD ⟨0, 0, 0⟩).close - l) / (h - l))
    | _, _ => 0)

/-- `calculate_stochastic` of `src/indicators.py`: returns
`(slow %K, slow %D)` where slow `%K` is the `smoothing`-rolling mean of the
filled raw `%K` and `%D` is the `dPeriod`-rolling mean of slow `%K`. -/
def calculate_stochastic (bars : List Bar) (kPeriod dPeriod smoothing : ℕ) :
    List (Option ℚ) × List (Option ℚ) :=
  let slowK := rollingMeanO smoothing ((stochFastK bars kPeriod).map some)
  (slowK, rollingMeanO dPeriod slowK)

/-- `calculate_macd` of `src/indicators.py`: `(macd line, signal line,
histogram)` built from the fast/slow/signal EWMs of the close. -/
def calculate_macd (bars : List Bar) (fastP slowP signalP : ℕ) :
    List ℚ × List ℚ × List ℚ :=
  let cs := bars.map Bar.close
  let m := List.zipWith (fun a b => a - b) (ewm fastP cs) (ewm slowP cs)
  let sg := ewm signalP m
  (m, sg, List.zipWith (fun a b => a - b) m sg)

/-- The parameter dictionary consumed by `MomentumIgnitionStrategy`
(`src/strategy.py`): every key the strategy reads, with the source's
names. -/
structure Params where
  atr_period : ℕ
  atr_threshold_factor : ℚ
  roc_period : ℕ
  roc_threshold : ℚ
  trend_ma_period : ℕ
  atr_stop_multiple : ℚ
  fast_stoch_k_period_1 : ℕ
  fast_stoch_d_period_1 : ℕ
  fast_stoch_smoothing_1 : ℕ
  fast_stoch_k_period_2 : ℕ
  fast_stoch_d_period_2 : ℕ
  fast_stoch_smoothing_2 : ℕ
  slow_stoch_k_period_1 : ℕ
  slow_stoch_d_period_1 : ℕ
  slow_stoch_smoothing_1 : ℕ
  slow_stoch_k_period_2 : ℕ
  slow_stoch_d_period_2 : ℕ
  slow_stoch_smoothing_2 : ℕ
  stoch_oversold : ℚ
  stoch_overbought : ℚ
  stoch_oversold_60_10_10_alert : ℚ
  stoch_overbought_60_10_10_alert : ℚ
  macd_fast_period : ℕ
  macd_slow_period : ℕ
  macd_signal_period : ℕ
deriving DecidableEq

/-- Last element of an `Option`-valued series (`iloc[-1]`); `none` both for
an empty series and for a trailing `NaN`, which the source treats alike
(every comparison against it is false). -/
def lastO (xs : List (Option ℚ)) : Option ℚ := xs.getLast?.join

/-- Second-to-last element (`iloc[-2]`) of an `Option`-valued series. -/
def penO (xs : List (Option ℚ)) : Option ℚ := (xs.get? (xs.length - 2)).join

/-- NaN-aware `<` against a number: false when the value is unavailable. -/
def oLt (o : Option ℚ) (q : ℚ) : Bool :=
  match o with
  | none => false
  | some x => decide (x < q)

/-- NaN-aware `>` against a number. -/
def oGt (o : Option ℚ) (q : ℚ) : Bool :=
  match o with
  | none => false
  | some x => decide (q < x)

/-- NaN-aware `≤` against a number. -/
def oLe (o : Option ℚ) (q : ℚ) : Bool :=
  match o with
  | none => false
  | some x => decide (x ≤ q)

/-- NaN-aware `≥` against a number. -/
def oGe (o : Option ℚ) (q : ℚ) : Bool :=
  match o with
  | none => false
  | some x => decide (q ≤ x)

/-- NaN-aware `<` between two possibly unavailable values. -/
def oLtO (a b : Option ℚ) : Bool :=
  match a, b with
  | some x, some y => decide (x < y)
  | _, _ => false

/-- NaN-aware `>` between two possibly unavailable values. -/
def oGtO (a b : Option ℚ) : Bool :=
  match a, b with
  | some x, some y => decide (y < x)
  | _, _ => false

/-- `is_consolidating` of `src/strategy.py` with its default
`window_for_avg_atr = 20` (the only way the strategy calls it): current ATR
strictly below `factor` times the mean of the trailing 20 ATR values;
`False` when fewer than 20 bars exist. -/
def is_consolidating (bars : List Bar) (atrPeriod : ℕ) (factor : ℚ) : Bool :=
  let atr := calculate_atr bars atrPeriod
  if atr.length < 20 then false
  else
    let cur := atr.getLastD 0
    let avg := ((atr.drop (atr.length - 20)).sum) / 20
    decide (cur < avg * factor)

/-- The momentum-ignition signal values of
`get_momentum_ignition_signal`. -/
inductive MomSig
  | mlong
  | mshort
  | mnone
deriving DecidableEq

/-- `get_momentum_ignition_signal` of `src/strategy.py`: last ROC value
against a symmetric threshold; `mnone` when the series is empty or the last
value is `NaN`. -/
def get_momentum_ignition_signal (bars : List Bar) (rocPeriod : ℕ) (thr : ℚ) : MomSig :=
  match lastO (calculate_roc bars rocPeriod) with
  | none => .mnone
  | some r => if thr < r then .mlong else if r < -thr then .mshort else .mnone

/-- The trend values of `get_trend`. -/
inductive TrendSig
  | up
  | down
  | side
deriving DecidableEq

/-- `get_trend` of `src/strategy.py`: last close against the last value of
the trend SMA; `side` when the series is empty or the SMA is still `NaN`. -/
def get_trend (bars : List Bar) (maPeriod : ℕ) : TrendSig :=
  match lastO (calculate_sma bars maPeriod) with
  | none => .side
  | some s =>
    let c := (bars.map Bar.close).getLastD 0
    if s < c then .up else if c < s then .down else .side

/-- `MomentumIgnitionStrategy._check_stochastic_confirmations`:
`(long_stoch_ok, short_stoch_ok)`.  The source's guard
`s.empty or s.iloc[-1] is np.nan or (len(s) < 2 or s.iloc[-2] is np.nan)`
reduces to `len(s) < 2`: the `is np.nan` identity tests are never true for
computed float64 values, and an actual `NaN` makes every later comparison
false, which the `Option` comparisons reproduce. -/
def check_stochastic_confirmations (p : Params) (bars : List Bar) : Bool × Bool :=
  let s1 := calculate_stochastic bars p.fast_stoch_k_period_1 p.fast_stoch_d_period_1
    p.fast_stoch_smoothing_1
  let s2 := calculate_stochastic bars p.fast_stoch_k_period_2 p.fast_stoch_d_period_2
    p.fast_stoch_smoothing_2
  let s3 := calculate_stochastic bars p.slow_stoch_k_period_1 p.slow_stoch_d_period_1
    p.slow_stoch_smoothing_1
  let s4 := calculate_stochastic bars p.slow_stoch_k_period_2 p.slow_stoch_d_period_2
    p.slow_stoch_smoothing_2
  if s1.1.length < 2 || s1.2.length < 2 || s2.1.length < 2 || s2.2.length < 2 ||
      s3.1.length < 2 || s3.2.length < 2 || s4.1.length < 2 || s4.2.length < 2 then
    (false, false)
  else
    let os := p.stoch_oversold
    let ob := p.stoch_overbought
    let allOversold :=
      oLt (lastO s1.1) os && oLt (lastO s1.2) os &&
      oLt (lastO s2.1) os && oLt (lastO s2.2) os &&
      oLt (lastO s3.1) os && oLt (lastO s3.2) os &&
      oLt (lastO s4.1) os && oLt (lastO s4.2) os
    let allOverbought :=
      oGt (lastO s1.1) ob && oGt (lastO s1.2) ob &&
      oGt (lastO s2.1) ob && oGt (lastO s2.2) ob &&
      oGt (lastO s3.1) ob && oGt (lastO s3.2) ob &&
      oGt (lastO s4.1) ob && oGt (lastO s4.2) ob
    let k := lastO s4.1
    let d := lastO s4.2
    let kPrev := penO s4.1
    let dPrev := penO s4.2
    let crossUp := oLtO kPrev dPrev && oGtO k d
    let crossDown := oGtO kPrev dPrev && oLtO k d
    let alertLong := oLe k p.stoch_oversold_60_10_10_alert
    let alertShort := oGe k p.stoch_overbought_60_10_10_alert
    (allOversold && crossUp && alertLong, allOverbought && crossDown && alertShort)

/-- `MomentumIgnitionStrategy._check_macd_confirmation`:
`(long_macd_ok, short_macd_ok)`.  The MACD series are total, so only the
length guard of the source remains. -/
def check_macd_confirmation (p : Params) (bars : List Bar) : Bool × Bool :=
  let r := calculate_macd bars p.macd_fast_period p.macd_slow_period p.macd_signal_period
  let m := r.1
  let sg := r.2.1
  let hist := r.2.2
  if m.length = 0 || sg.length = 0 || hist.length = 0 || hist.length < 2 then
    (false, false)
  else
    let ml := m.getLastD 0
    let sl := sg.getLastD 0
    let h1 := hist.getLastD 0
    let h2 := (hist.get? (hist.length - 2)).getD 0
    (decide (ml < 0) && decide (sl < 0) && decide (h2 < 0) && decide (0 < h1),
     decide (0 < ml) && decide (0 < sl) && decide (0 < h2) && decide (h1 < 0))

/-- The position state of the strategy.  The source keeps three fields
(`current_position`, `entry_price`, `trailing_stop_price`) that are always
set and cleared together; they are bundled so that an open position always
carries its entry price and trailing stop. -/
inductive PosState
  | flat
  | long (entryPrice stop : ℚ)
  | short (entryPrice stop : ℚ)
deriving DecidableEq

/-- The four trade-event kinds emitted by the strategy. -/
inductive SigType
  | entry_long
  | entry_short
  | exit_long
  | exit_short
deriving DecidableEq

/-- One emitted trade event (`self.signals.append({...})`); `timestamp` is
the positional index of the bar (`current_data_slice.index[-1]`). -/
structure Signal where
  timestamp : ℕ
  kind : SigType
  price : ℚ
  reason : String
deriving DecidableEq

/-- The mutable state of one `MomentumIgnitionStrategy` instance. -/
structure StratState where
  pos : PosState
  signals : List Signal
deriving DecidableEq

/-- The state set up by `MomentumIgnitionStrategy.__init__`. -/
def initState : StratState := ⟨.flat, []⟩

/-- The `max_lookback` computed at the top of `process_bar`: the maximum of
all configured indicator periods plus 2 for shift operations. -/
def maxLookback (p : Params) : ℕ :=
  ([p.trend_ma_period, p.atr_period, p.roc_period,
    p.fast_stoch_k_period_1, p.fast_stoch_d_period_1, p.fast_stoch_smoothing_1,
    p.fast_stoch_k_period_2, p.fast_stoch_d_period_2, p.fast_stoch_smoothing_2,
    p.slow_stoch_k_period_1, p.slow_stoch_d_period_1, p.slow_stoch_smoothing_1,
    p.slow_stoch_k_period_2, p.slow_stoch_d_period_2, p.slow_stoch_smoothing_2,
    p.macd_fast_period, p.macd_slow_period, p.macd_signal_period].foldl max 0) + 2

/-- The current ATR value read by `process_bar`
(`calculate_atr(...).iloc[-1]`). -/
def currentATR (p : Params) (bars : List Bar) : ℚ :=
  (calculate_atr bars p.atr_period).getLastD 0

/-- The last close of the history (`current_data_slice['Close'].iloc[-1]`). -/
def currentClose (bars : List Bar) : ℚ := (bars.map Bar.close).getLastD 0

/-- The exit block of `process_bar` (lines 240-271 of `src/strategy.py`):
when in a position, ratchet the trailing stop
(`max` for long, `min` for short) and, if the bar's low (long) or
high (short) breaches the updated stop, emit an exit event at the stop
price and go flat. -/
def exitStep (p : Params) (st : StratState) (bars : List Bar) : StratState :=
  let atr := currentATR p bars
  let c := currentClose bars
  let h := (bars.map Bar.high).getLastD 0
  let l := (bars.map Bar.low).getLastD 0
  let t := bars.length - 1
  match st.pos with
  | .flat => st
  | .long e s =>
    let s2 := max s (c - atr * p.atr_stop_multiple)
    if l ≤ s2 then
      ⟨.flat, st.signals ++ [⟨t, .exit_long, s2, "trailing_stop"⟩]⟩
    else ⟨.long e s2, st.signals⟩
  | .short e s =>
    let s2 := min s (c + atr * p.atr_stop_multiple)
    if s2 ≤ h then
      ⟨.flat, st.signals ++ [⟨t, .exit_short, s2, "trailing_stop"⟩]⟩
    else ⟨.short e s2, st.signals⟩

/-- The entry block of `process_bar` (lines 273-307 of `src/strategy.py`):
evaluated whenever `current_position is None` at this point — including
right after the exit block went flat in the same call. -/
def entryStep (p : Params) (st : StratState) (bars : List Bar) : StratState :=
  match st.pos with
  | .flat =>
    let atr := currentATR p bars
    let c := currentClose bars
    let t := bars.length - 1
    let cons := is_consolidating bars p.atr_period p.atr_threshold_factor
    let mom := get_momentum_ignition_signal bars p.roc_period p.roc_threshold
    let tr := get_trend bars p.trend_ma_period
    let sc := check_stochastic_confirmations p bars
    let mc := check_macd_confirmation p bars
    if cons && decide (mom = .mlong) && decide (tr = .up) && sc.1 && mc.1 then
      ⟨.long c (c - atr * p.atr_stop_multiple),
       st.signals ++ [⟨t, .entry_long, c, "consolidation_breakout_long_confirmed"⟩]⟩
    else if cons && decide (mom = .mshort) && decide (tr = .down) && sc.2 && mc.2 then
      ⟨.short c (c + atr * p.atr_stop_multiple),
       st.signals ++ [⟨t, .entry_short, c, "consolidation_breakout_short_confirmed"⟩]⟩
    else st
  | _ => st

/-- `MomentumIgnitionStrategy.process_bar`: no-op when the history is
shorter than `max_lookback`, otherwise the exit block followed by the entry
block (both read the same purely functional indicator values of the same
history slice, so computing them inside each block is equivalent to the
source's single computation up front). -/
def process_bar (p : Params) (st : StratState) (bars : List Bar) : StratState :=
  if bars.length < maxLookback p then st
  else entryStep p (exitStep p st bars) bars

/-- Feeding a bar sequence to a fresh strategy one growing prefix at a time,
exactly as `main.py` and `StrategyOptimizer._evaluate_params` do
(`for i in range(len(data)): strategy.process_bar(data.iloc[:i+1])`). -/
def runHistory (p : Params) (bars : List Bar) : StratState :=
  (List.range bars.length).foldl (fun st i => process_bar p st (bars.take (i + 1))) initState

/-- A concrete parameter set (all fields are legal strategy parameters):
tiny periods, a huge consolidation factor and a very negative ROC threshold
so that consolidation and long momentum hold on any 20-bar history, while
the 60-10-10 stochastic cross and the MACD histogram flip remain real
constraints. -/
def cexParams : Params where
  atr_period := 2
  atr_threshold_factor := 1000000
  roc_period := 1
  roc_threshold := -1000000
  trend_ma_period := 2
  atr_stop_multiple := 3
  fast_stoch_k_period_1 := 1
  fast_stoch_d_period_1 := 1
  fast_stoch_smoothing_1 := 1
  fast_stoch_k_period_2 := 1
  fast_stoch_d_period_2 := 1
  fast_stoch_smoothing_2 := 1
  slow_stoch_k_period_1 := 1
  slow_stoch_d_period_1 := 1
  slow_stoch_smoothing_1 := 1
  slow_stoch_k_period_2 := 1
  slow_stoch_d_period_2 := 2
  slow_stoch_smoothing_2 := 1
  stoch_oversold := 1000000
  stoch_overbought := 2000000
  stoch_oversold_60_10_10_alert := 1000000
  stoch_overbought_60_10_10_alert := 3000000
  macd_fast_period := 1
  macd_slow_period := 3
  macd_signal_period := 3

/-- A concrete 24-bar history (high, low, close).  Bars 0-19 decline one
point per bar; bar 21 triggers a confirmed long entry; bar 23 breaches the
trailing stop (low 95) while every long-entry condition holds again on its
close. -/
def cexBars : List Bar :=
  [⟨121, 119, 120⟩, ⟨120, 118, 119⟩, ⟨119, 117, 118⟩, ⟨118, 116, 117⟩,
   ⟨117, 115, 116⟩, ⟨116, 114, 115⟩, ⟨115, 113, 114⟩, ⟨114, 112, 113⟩,
   ⟨113, 111, 112⟩, ⟨112, 110, 111⟩, ⟨111, 109, 110⟩, ⟨110, 108, 109⟩,
   ⟨109, 107, 108⟩, ⟨108, 106, 107⟩, ⟨107, 105, 106⟩, ⟨106, 104, 105⟩,
   ⟨105, 103, 104⟩, ⟨104, 102, 103⟩, ⟨103, 101, 102⟩, ⟨102, 100, 101⟩,
   ⟨100.2, 99.2, 99.5⟩, ⟨100.3, 99.3, 100⟩, ⟨99.3, 98.3, 98.5⟩,
   ⟨100, 95, 99⟩]

/-- The position side of an open position. -/
inductive Side
  | long
  | short
deriving DecidableEq

/-- The side recorded in a `PosState`, forgetting prices. -/
def posSide : PosState → Option Side
  | .flat => none
  | .long _ _ => some .long
  | .short _ _ => some .short

/-- One step of replaying an event sequence against the open-position side:
an entry is legal only while flat and opens its side, an exit is legal only
while the matching side is open and closes it; anything else is illegal
(`none`). -/
def stepOpen (o : Option Side) (t : SigType) : Option (Option Side) :=
  match o, t with
  | none, .entry_long => some (some .long)
  | none, .entry_short => some (some .short)
  | some .long, .exit_long => some none
  | some .short, .exit_short => some none
  | _, _ => none

/-- Replay a whole event-kind sequence from flat.  `some o` means the
sequence is legal (entries only while flat, exits only for the open side,
hence alternation and at most one open position) and leaves side `o` open;
`none` means some event was illegal. -/
def replayOk (l : List SigType) : Option (Option Side) :=
  l.foldl (fun acc t => acc.bind (fun o => stepOpen o t)) (some none)

/-- The state invariant of the strategy: its emitted event sequence is a
legal alternation and the side it leaves open is exactly the current
position. -/
def Inv (st : StratState) : Prop :=
  replayOk (st.signals.map Signal.kind) = some (posSide st.pos)

/-- Whether an event kind is an exit. -/
def isExit : SigType → Bool
  | .exit_long => true
  | .exit_short => true
  | _ => false

/-- Whether an event kind is an entry. -/
def isEntry : SigType → Bool
  | .entry_long => true
  | .entry_short => true
  | _ => false

/-- Two bars whose first position has a nonzero high-low range: the input
exhibiting the silent zero of `calculate_stochastic` (its `fillna(0)` also
fills the insufficient-history `NaN`s of the first `k_period - 1`
positions). -/
def c5bars : List Bar := [⟨3, 1, 2⟩, ⟨4, 2, 3⟩]

/-- A minimal legal parameter set (every period 1) whose `max_lookback`
is 3; used to exercise theorems on concrete inputs. -/
def smallParams : Params where
  atr_period := 1
  atr_threshold_factor := 1
  roc_period := 1
  roc_threshold := 1
  trend_ma_period := 1
  atr_stop_multiple := 1
  fast_stoch_k_period_1 := 1
  fast_stoch_d_period_1 := 1
  fast_stoch_smoothing_1 := 1
  fast_stoch_k_period_2 := 1
  fast_stoch_d_period_2 := 1
  fast_stoch_smoothing_2 := 1
  slow_stoch_k_period_1 := 1
  slow_stoch_d_period_1 := 1
  slow_stoch_smoothing_1 := 1
  slow_stoch_k_period_2 := 1
  slow_stoch_d_period_2 := 1
  slow_stoch_smoothing_2 := 1
  stoch_oversold := 20
  stoch_overbought := 80
  stoch_oversold_60_10_10_alert := 15
  stoch_overbought_60_10_10_alert := 85
  macd_fast_period := 1
  macd_slow_period := 1
  macd_signal_period := 1

/-- Three identical bars used to exercise the trailing-stop theorem on a
history long enough for `smallParams` (`max_lookback = 3`): ATR is 2, so a
long position with stop 7 ratchets to `max 7 (10 - 2·1) = 8` and the low 9
does not breach it. -/
def c4bars : List Bar := [⟨11, 9, 10⟩, ⟨11, 9, 10⟩, ⟨11, 9, 10⟩]

/-- A pandas `DataFrame` as the indicator functions see it: which of the
price columns are present, plus the bar data itself.  Used to model the
required-column checks at the top of each indicator. -/
structure DataFrame where
  hasHigh : Bool
  hasLow : Bool
  hasClose : Bool
  bars : List Bar

/-- Whether an `Except` result is a success (no exception raised). -/
def isOkE : Except String α → Bool
  | .ok _ => true
  | .error _ => false

/-- `calculate_atr` including its required-column check
(`raise ValueError` when `High`, `Low` or `Close` is absent). -/
def calculate_atr_checked (df : DataFrame) (period : ℕ) : Except String (List ℚ) :=
  if df.hasHigh && df.hasLow && df.hasClose then .ok (calculate_atr df.bars period)
  else .error "DataFrame must contain High, Low, Close columns for ATR calculation."

/-- `calculate_roc` including its required-column check (`Close`). -/
def calculate_roc_checked (df : DataFrame) (period : ℕ) : Except String (List (Option ℚ)) :=
  if df.hasClose then .ok (calculate_roc df.bars period)
  else .error "DataFrame must contain Close column for ROC calculation."

/-- `calculate_sma` including its required-column check (`Close`). -/
def calculate_sma_checked (df : DataFrame) (period : ℕ) : Except String (List (Option ℚ)) :=
  if df.hasClose then .ok (calculate_sma df.bars period)
  else .error "DataFrame must contain Close column for SMA calculation."

/-- `calculate_stochastic` including its required-column check
(`High`, `Low`, `Close`). -/
def calculate_stochastic_checked (df : DataFrame) (kPeriod dPeriod smoothing : ℕ) :
    Except String (List (Option ℚ) × List (Option ℚ)) :=
  if df.hasHigh && df.hasLow && df.hasClose then
    .ok (calculate_stochastic df.bars kPeriod dPeriod smoothing)
  else .error "DataFrame must contain High, Low, Close columns for Stochastic calculation."

/-- `calculate_macd` including its required-column check (`Close`). -/
def calculate_macd_checked (df : DataFrame) (fastP slowP signalP : ℕ) :
    Except String (List ℚ × List ℚ × List ℚ) :=
  if df.hasClose then .ok (calculate_macd df.bars fastP slowP signalP)
  else .error "DataFrame must contain Close column for MACD calculation."

/-- The backtester's summary statistics; `none` models a `NaN`/undefined
value. -/
structure MetricsB where
  totalReturn : Option ℚ
  sharpeSq : Option ℚ
  maxDrawdown : Option ℚ
  winRate : Option ℚ
  profitFactor : Option ℚ
  tradeCount : Option ℕ
deriving DecidableEq

/-- The all-undefined (empty/NaN) metrics record. -/
def emptyMetricsB : MetricsB := ⟨none, none, none, none, none, none⟩

/-- Peak-to-trough drawdown of an equity series (fold carrying the running
peak and the worst drawdown so far). -/
def maxDrawdownOf (equity : List ℚ) : ℚ :=
  (equity.foldl (fun (acc : ℚ × ℚ) x => (max acc.1 x, max acc.2 (max acc.1 x - x)))
    (equity.headD 0, 0)).2

/-- Modelled from the spec: the repository's `Backtester.calculate_metrics`
lives in `src/backtester.py`, which is imported by `optimizer.py` and
`main.py` but is not among the provided sources.  Per §4.3 of the spec it
computes total return, Sharpe ratio, max drawdown, win rate, profit factor
and trade count from the ledger (per-trade net P&L) and equity series, and
"fails gracefully (returns empty/NaN metrics) when fewer than 2 equity
points exist or the ledger is empty — never raises for this case".  The
result is an `Except` so that "never raises" is the visible `.ok`; the
Sharpe ratio is represented by its square (mean²/variance of per-trade
P&L), the rational-valued proxy of `mean/stdev`, undefined for zero
variance. -/
def calculate_metrics (ledger : List ℚ) (equity : List ℚ) : Except String MetricsB :=
  if equity.length < 2 ∨ ledger = [] then .ok emptyMetricsB
  else
    let n : ℚ := ledger.length
    let mean := ledger.sum / n
    let variance := (ledger.map (fun x => (x - mean) ^ 2)).sum / n
    let first := equity.headD 0
    let lastE := equity.getLastD 0
    let wins := ledger.filter (fun x => decide (0 < x))
    let losses := -(ledger.filter (fun x => decide (x < 0))).sum
    .ok
      { totalReturn := if first = 0 then none else some ((lastE / first - 1) * 100)
        sharpeSq := if variance = 0 then none else some (mean ^ 2 / variance)
        maxDrawdown := some (maxDrawdownOf equity)
        winRate := some ((wins.length : ℚ) / n)
        profitFactor := if losses = 0 then none else some (wins.sum / losses)
        tradeCount := some ledger.length }

/-- The metrics dictionary an optimizer run collects: named scalar
statistics, `none` for a `NaN` value.  `metricGet` is `dict.get`: `none`
both for an absent key and for a present `NaN`, exactly the two cases
`pd.isna(metrics.get(...))` accepts. -/
structure OptMetrics where
  entries : List (String × Option ℚ)
deriving DecidableEq

/-- `metrics.get(key)` with `NaN` and missing key collapsed to `none`. -/
def metricGet (m : OptMetrics) (key : String) : Option ℚ :=
  (List.lookup key m.entries).join

/-- The outcome of one backtest as `StrategyOptimizer._evaluate_params`
consumes it: the trade log and equity curve of `Backtester.get_results()`
and the metrics of `Backtester.calculate_metrics(...)`.  The backtester
itself (`src/backtester.py`) is not among the provided sources, so it is
passed in abstractly as an oracle `Params → List Bar → Except String
BTOutcome`; an `.error` models an exception raised anywhere inside the
backtest, which the source's `try/except` turns into `None`. -/
structure BTOutcome where
  tradeLog : List ℚ
  equity : List ℚ
  metrics : OptMetrics

/-- `StrategyOptimizer._evaluate_params`: run the strategy over every
growing prefix of the data, discard the run when no signals were generated,
when the backtester raised, when the trade log is empty or the equity curve
has fewer than 2 points, or when `metrics.get('sharpe_ratio')` or
`metrics.get('total_return')` is `NaN`/missing — note the source checks
those two fixed keys, not the requested optimization metric. -/
def evaluate_params (bt : Params → List Bar → Except String BTOutcome)
    (data : List Bar) (p : Params) : Option OptMetrics :=
  let sigs := (runHistory p data).signals
  if sigs.isEmpty then none
  else
    match bt p data with
    | .error _ => none
    | .ok o =>
      if o.tradeLog.isEmpty || o.equity.isEmpty || decide (o.equity.length < 2) then none
      else if (metricGet o.metrics "sharpe_ratio").isNone ||
          (metricGet o.metrics "total_return").isNone then none
      else some o.metrics

/-- `StrategyOptimizer.run_grid_search`: evaluate every parameter
combination in order, append a result row to the accumulated `self.results`
for each successful evaluation, and return `pd.DataFrame(self.results)` —
the whole accumulated list, not only this call's rows.  The
`optimize_metric` argument exists in the source's signature and is never
read by the body. -/
def run_grid_search (bt : Params → List Bar → Except String BTOutcome)
    (data : List Bar) (results : List (Params × OptMetrics))
    (combos : List Params) (_optimizeMetric : String) : List (Params × OptMetrics) :=
  combos.foldl (fun acc c =>
    match evaluate_params bt data c with
    | some m => acc ++ [(c, m)]
    | none => acc) results

/-- The sort order of `get_best_results`: rows are compared on the sort
column with `NaN` filled by `-inf` for a descending sort and `+inf` for an
ascending one, so undefined values always sort to the worst end. -/
def keyLe (ascending : Bool) (a b : Option ℚ) : Bool :=
  match a, b with
  | some x, some y => if ascending then decide (x ≤ y) else decide (y ≤ x)
  | some _, none => true
  | none, some _ => false
  | none, none => true

/-- `StrategyOptimizer.get_best_results`: empty table when no results have
accumulated; otherwise sort the accumulated rows by the requested metric
(falling back to `total_return` when no row carries the requested column)
and return the first `top_n`. -/
def get_best_results (results : List (Params × OptMetrics)) (topN : ℕ)
    (sort_by : String) (ascending : Bool) : List (Params × OptMetrics) :=
  if results.isEmpty then []
  else
    let key := if results.any (fun r => (List.lookup sort_by r.2.entries).isSome) then sort_by
      else "total_return"
    (results.mergeSort (fun r1 r2 => keyLe ascending (metricGet r1.2 key) (metricGet r2.2 key))).take
      topN

/-- The metrics dictionary used by the C7 counterexample: `sharpe_ratio`
and `total_return` defined, `max_drawdown` present but `NaN`. -/
def c7metrics : OptMetrics :=
  ⟨[( "sharpe_ratio", some 1), ( "total_return", some 1), ( "max_drawdown", none)]⟩

/-- A backtester oracle producing one completed trade, a 2-point equity
curve and `c7metrics`, for every run. -/
def c7oracle : Params → List Bar → Except String BTOutcome :=
  fun _ _ => .ok ⟨[1], [100, 101], c7metrics⟩

/-! ## Helper lemmas -/

theorem replayOk_append (l : List SigType) (t : SigType) :
    replayOk (l ++ [t]) = (replayOk l).bind (fun o => stepOpen o t) := by
  simp [replayOk, List.foldl_append]

theorem rangeMap_get? (f : ℕ → α) {i n : ℕ} (h : i < n) :
    ((List.range n).map f).get? i = some (f i) := by
  simp only [List.get?_eq_getElem?, List.getElem?_map, List.getElem?_range h]
  rfl

theorem run_grid_search_filterMap (bt : Params → List Bar → Except String BTOutcome)
    (data : List Bar) (m : String) (combos : List Params) :
    ∀ results, run_grid_search bt data results combos m =
      results ++ combos.filterMap (fun c => (evaluate_params bt data c).map (fun mm => (c, mm))) := by
  induction combos with
  | nil => intro results; simp [run_grid_search]
  | cons c cs ih =>
    intro results
    unfold run_grid_search at ih ⊢
    simp only [List.foldl_cons, List.filterMap_cons]
    cases h : evaluate_params bt data c with
    | none => simpa using ih results
    | some mm => rw [ih (results ++ [(c, mm)])]; simp

theorem run_grid_search_append (bt : Params → List Bar → Except String BTOutcome)
    (data : List Bar) (m : String) (combos : List Params) (results : List (Params × OptMetrics)) :
    run_grid_search bt data results combos m =
      results ++ run_grid_search bt data [] combos m := by
  rw [run_grid_search_filterMap bt data m combos results,
    run_grid_search_filterMap bt data m combos []]
  simp

theorem exitStep_inv (p : Params) (st : StratState) (bars : List Bar) (h : Inv st) :
    Inv (exitStep p st bars) := by
  obtain ⟨pos, sigs⟩ := st
  cases pos with
  | flat => exact h
  | long e s =>
    unfold Inv at h ⊢
    simp only [posSide] at h
    simp only [exitStep]
    split
    · simp only [List.map_append, List.map_cons, List.map_nil, replayOk_append, h]
      rfl
    · simpa [posSide] using h
  | short e s =>
    unfold Inv at h ⊢
    simp only [posSide] at h
    simp only [exitStep]
    split
    · simp only [List.map_append, List.map_cons, List.map_nil, replayOk_append, h]
      rfl
    · simpa [posSide] using h

theorem entryStep_inv (p : Params) (st : StratState) (bars : List Bar) (h : Inv st) :
    Inv (entryStep p st bars) := by
  obtain ⟨pos, sigs⟩ := st
  cases pos with
  | flat =>
    unfold Inv at h ⊢
    simp only [posSide] at h
    simp only [entryStep]
    split
    · simp only [List.map_append, List.map_cons, List.map_nil, replayOk_append, h]
      rfl
    · split
      · simp only [List.map_append, List.map_cons, List.map_nil, replayOk_append, h]
        rfl
      · simpa [posSide] using h
  | long e s => exact h
  | short e s => exact h

theorem process_bar_inv (p : Params) (st : StratState) (bars : List Bar) (h : Inv st) :
    Inv (process_bar p st bars) := by
  unfold process_bar
  split
  · exact h
  · exact entryStep_inv p _ bars (exitStep_inv p st bars h)

theorem exitStep_signals (p : Params) (st : StratState) (bars : List Bar) :
    (exitStep p st bars).signals = st.signals ∨
    (∃ e, (exitStep p st bars).signals = st.signals ++ [e] ∧ isExit e.kind = true ∧
      (exitStep p st bars).pos = .flat) := by
  obtain ⟨pos, sigs⟩ := st
  cases pos with
  | flat => left; rfl
  | long e s =>
    simp only [exitStep]
    split
    · right; exact ⟨_, rfl, rfl, rfl⟩
    · left; rfl
  | short e s =>
    simp only [exitStep]
    split
    · right; exact ⟨_, rfl, rfl, rfl⟩
    · left; rfl

theorem entryStep_signals (p : Params) (st : StratState) (bars : List Bar) :
    (entryStep p st bars).signals = st.signals ∨
    (∃ e, (entryStep p st bars).signals = st.signals ++ [e] ∧ isEntry e.kind = true) := by
  obtain ⟨pos, sigs⟩ := st
  cases pos with
  | flat =>
    simp only [entryStep]
    split
    · right; exact ⟨_, rfl, rfl⟩
    · split
      · right; exact ⟨_, rfl, rfl⟩
      · left; rfl
  | long e s => left; rfl
  | short e s => left; rfl

/-! ## Claim theorems -/

/-- C2.  For every call sequence (in particular every monotonically growing
bar history), the emitted event sequence replays legally from flat:
an exit is only ever emitted while the matching position is open (never
while flat), an entry only while flat (never with a position already open),
hence at most one position is open at any point, events strictly alternate
entry/exit with matching sides - so each exit immediately follows, in event
order, the entry it closes - and the side left open by the events equals
the engine's current position. -/
theorem c2_event_alternation (p : Params) (dfs : List (List Bar)) :
    Inv (dfs.foldl (process_bar p) initState) := by
  suffices h : ∀ st, Inv st → Inv (dfs.foldl (process_bar p) st) from h initState rfl
  induction dfs with
  | nil => exact fun _ h => h
  | cons d ds ih => exact fun st h => ih _ (process_bar_inv p st d h)

/-- C1 (amended).  A single `process_bar` call appends one of: no event,
one event, or exactly two events of which the first is an exit and the
second an entry - because after the exit block goes flat, the entry block
(`if self.current_position is None`) still runs in the same call.  So a
call performs at most one transition except that an exit may be followed,
within the same call, by a freshly evaluated entry. -/
theorem c1_amended_per_call_events (p : Params) (st : StratState) (bars : List Bar) :
    (process_bar p st bars).signals = st.signals ∨
    (∃ e, (process_bar p st bars).signals = st.signals ++ [e]) ∨
    (∃ e1 e2, (process_bar p st bars).signals = st.signals ++ [e1, e2] ∧
      isExit e1.kind = true ∧ isEntry e2.kind = true) := by
  unfold process_bar
  split
  · left; rfl
  · rcases exitStep_signals p st bars with h1 | ⟨e1, h1, he1, _⟩ <;>
      rcases entryStep_signals p (exitStep p st bars) bars with h2 | ⟨e2, h2, he2⟩
    · left; rw [h2, h1]
    · right; left; exact ⟨e2, by rw [h2, h1]⟩
    · right; left; exact ⟨e1, by rw [h2, h1]⟩
    · right; right
      refine ⟨e1, e2, ?_, he1, he2⟩
      rw [h2, h1, List.append_assoc]
      rfl

/-- C3.  For every bar history shorter than `max_lookback` (the maximum of
all configured indicator periods plus the margin of 2 for shift
operations), `process_bar` is a no-op: the state - both the position and
the emitted-signal list - is unchanged; consequently an engine fed only
such histories never leaves the initial flat state. -/
theorem c3_short_history_noop (p : Params) :
    (∀ (st : StratState) (bars : List Bar), bars.length < maxLookback p →
      process_bar p st bars = st) ∧
    (∀ dfs : List (List Bar), (∀ df ∈ dfs, df.length < maxLookback p) →
      dfs.foldl (process_bar p) initState = initState) := by
  have h1 : ∀ (st : StratState) (bars : List Bar), bars.length < maxLookback p →
      process_bar p st bars = st := by
    intro st bars h
    unfold process_bar
    rw [if_pos h]
  refine ⟨h1, ?_⟩
  intro dfs
  induction dfs with
  | nil => intro _; rfl
  | cons d ds ih =>
    intro h
    simp only [List.foldl_cons]
    rw [h1 _ _ (h d (List.mem_cons_self d ds))]
    exact ih (fun x hx => h x (List.mem_cons_of_mem d hx))

/-- Witness for C3 at a concrete input: with `smallParams`
(`max_lookback = 3`), a single-bar history changes nothing and an engine
fed only such histories stays in `initState`. -/
theorem c3_short_history_noop_witness :
    process_bar smallParams ⟨.long 10 7, []⟩ [⟨2, 1, 1⟩] = ⟨.long 10 7, []⟩ ∧
    ([[⟨1, 1, 1⟩], [⟨2, 1, 1⟩]] : List (List Bar)).foldl (process_bar smallParams) initState =
      initState :=
  ⟨(c3_short_history_noop smallParams).1 ⟨.long 10 7, []⟩ [⟨2, 1, 1⟩] (by decide),
   (c3_short_history_noop smallParams).2 [[⟨1, 1, 1⟩], [⟨2, 1, 1⟩]] (by decide)⟩

/-- C5 (code bug).  `calculate_stochastic`'s `fillna(0)` silently reports
the numeric value `0` at positions where the indicator is undefined for
lack of history: on two bars with `k_period = 2`, `d_period = 1`,
`smoothing = 1`, the reported slow `%K` at index 0 is the number `0`
although the 2-bar rolling high/low window is still undefined there (the
rolling max/min are `NaN`, shown by the second and third conjuncts) and
the bar's own range is nonzero - so the `0` is not the documented
zero-range case but a silently zeroed `NaN`. -/
theorem c5_stochastic_warmup_zero :
    (calculate_stochastic c5bars 2 1 1).1.get? 0 = some (some 0) ∧
    (rollingMaxO 2 (c5bars.map Bar.high)).get? 0 = some none ∧
    (rollingMinO 2 (c5bars.map Bar.low)).get? 0 = some none ∧
    ¬((c5bars.get? 0).getD ⟨0, 0, 0⟩).high - ((c5bars.get? 0).getD ⟨0, 0, 0⟩).low = 0 := by
  refine ⟨?_, ?_, ?_, ?_⟩ <;> decide!

/-- C8.  Every indicator function raises its invalid-input `ValueError`
exactly when a required price column is absent: `calculate_atr` and
`calculate_stochastic` require `High`, `Low` and `Close`;
`calculate_roc`, `calculate_sma` and `calculate_macd` require `Close`.
When all required columns are present no such error is raised. -/
theorem c8_missing_columns (df : DataFrame) (a b c : ℕ) :
    isOkE (calculate_atr_checked df a) = (df.hasHigh && df.hasLow && df.hasClose) ∧
    isOkE (calculate_stochastic_checked df a b c) = (df.hasHigh && df.hasLow && df.hasClose) ∧
    isOkE (calculate_roc_checked df a) = df.hasClose ∧
    isOkE (calculate_sma_checked df a) = df.hasClose ∧
    isOkE (calculate_macd_checked df a b c) = df.hasClose := by
  obtain ⟨h1, h2, h3, bars⟩ := df
  cases h1 <;> cases h2 <;> cases h3 <;>
    simp [calculate_atr_checked, calculate_stochastic_checked, calculate_roc_checked,
      calculate_sma_checked, calculate_macd_checked, isOkE]

/-- C9 (spec-modelled; `src/backtester.py` is not among the sources).
When fewer than 2 equity points exist or the ledger is empty, the
backtester's metric computation returns the empty/NaN metrics record and
does not raise (`.ok`, never `.error`): the zero-trade case is a normal
outcome. -/
theorem c9_degenerate_metrics (ledger equity : List ℚ)
    (h : equity.length < 2 ∨ ledger = []) :
    calculate_metrics ledger equity = .ok emptyMetricsB := by
  unfold calculate_metrics
  rw [if_pos h]

/-- Witness for C9: the empty ledger and empty equity curve yield the
empty/NaN metrics without an error. -/
theorem c9_degenerate_metrics_witness :
    calculate_metrics [] [] = .ok emptyMetricsB :=
  c9_degenerate_metrics [] [] (Or.inr rfl)

/-- C4.  While a long position is open and survives the call (no exit event
is emitted, i.e. the signal list is unchanged), `process_bar` updates the
trailing stop to `max(previous stop, close - ATR·stopMultiple)`, so it
never decreases; symmetrically a surviving short position's stop is updated
to `min(previous stop, close + ATR·stopMultiple)` and never increases.
(A history shorter than `max_lookback` leaves the stop untouched.) -/
theorem c4_trailing_stop_ratchet (p : Params) (st : StratState) (bars : List Bar) :
    (∀ e s, st.pos = .long e s → (process_bar p st bars).signals = st.signals →
      ∃ s2, (process_bar p st bars).pos = .long e s2 ∧ s ≤ s2 ∧
        (maxLookback p ≤ bars.length →
          s2 = max s (currentClose bars - currentATR p bars * p.atr_stop_multiple)) ∧
        (bars.length < maxLookback p → s2 = s)) ∧
    (∀ e s, st.pos = .short e s → (process_bar p st bars).signals = st.signals →
      ∃ s2, (process_bar p st bars).pos = .short e s2 ∧ s2 ≤ s ∧
        (maxLookback p ≤ bars.length →
          s2 = min s (currentClose bars + currentATR p bars * p.atr_stop_multiple)) ∧
        (bars.length < maxLookback p → s2 = s)) := by
  obtain ⟨pos, sigs⟩ := st
  constructor
  · intro e s hp hsig
    replace hp : pos = PosState.long e s := hp
    subst hp
    by_cases hlen : bars.length < maxLookback p
    · refine ⟨s, ?_, le_refl s, fun h => absurd hlen (by omega), fun _ => rfl⟩
      unfold process_bar
      rw [if_pos hlen]
    · unfold process_bar at hsig ⊢
      rw [if_neg hlen] at hsig ⊢
      by_cases hex : (bars.map Bar.low).getLastD 0 ≤
          max s (currentClose bars - currentATR p bars * p.atr_stop_multiple)
      · exfalso
        have hA : exitStep p ⟨.long e s, sigs⟩ bars =
            ⟨.flat, sigs ++ [⟨bars.length - 1, .exit_long,
              max s (currentClose bars - currentATR p bars * p.atr_stop_multiple),
              "trailing_stop"⟩]⟩ := by
          simp only [exitStep]
          rw [if_pos hex]
        rw [hA] at hsig
        rcases entryStep_signals p ⟨.flat, sigs ++ [⟨bars.length - 1, .exit_long,
            max s (currentClose bars - currentATR p bars * p.atr_stop_multiple),
            "trailing_stop"⟩]⟩ bars with h2 | ⟨e2, h2, _⟩ <;>
          rw [h2] at hsig <;>
          · have hl := congrArg List.length hsig
            simp only [List.length_append, List.length_cons, List.length_nil] at hl
            omega
      · have hA : exitStep p ⟨.long e s, sigs⟩ bars =
            ⟨.long e (max s (currentClose bars - currentATR p bars * p.atr_stop_multiple)),
              sigs⟩ := by
          simp only [exitStep]
          rw [if_neg hex]
        rw [hA] at hsig ⊢
        exact ⟨max s (currentClose bars - currentATR p bars * p.atr_stop_multiple),
          rfl, le_max_left _ _, fun _ => rfl, fun h => absurd h hlen⟩
  · intro e s hp hsig
    replace hp : pos = PosState.short e s := hp
    subst hp
    by_cases hlen : bars.length < maxLookback p
    · refine ⟨s, ?_, le_refl s, fun h => absurd hlen (by omega), fun _ => rfl⟩
      unfold process_bar
      rw [if_pos hlen]
    · unfold process_bar at hsig ⊢
      rw [if_neg hlen] at hsig ⊢
      by_cases hex : min s (currentClose bars + currentATR p bars * p.atr_stop_multiple) ≤
          (bars.map Bar.high).getLastD 0
      · exfalso
        have hA : exitStep p ⟨.short e s, sigs⟩ bars =
            ⟨.flat, sigs ++ [⟨bars.length - 1, .exit_short,
              min s (currentClose bars + currentATR p bars * p.atr_stop_multiple),
              "trailing_stop"⟩]⟩ := by
          simp only [exitStep]
          rw [if_pos hex]
        rw [hA] at hsig
        rcases entryStep_signals p ⟨.flat, sigs ++ [⟨bars.length - 1, .exit_short,
            min s (currentClose bars + currentATR p bars * p.atr_stop_multiple),
            "trailing_stop"⟩]⟩ bars with h2 | ⟨e2, h2, _⟩ <;>
          rw [h2] at hsig <;>
          · have hl := congrArg List.length hsig
            simp only [List.length_append, List.length_cons, List.length_nil] at hl
            omega
      · have hA : exitStep p ⟨.short e s, sigs⟩ bars =
            ⟨.short e (min s (currentClose bars + currentATR p bars * p.atr_stop_multiple)),
              sigs⟩ := by
          simp only [exitStep]
          rw [if_neg hex]
        rw [hA] at hsig ⊢
        exact ⟨min s (currentClose bars + currentATR p bars * p.atr_stop_multiple),
          rfl, min_le_left _ _, fun _ => rfl, fun h => absurd h hlen⟩

/-- Witness for C4: with `smallParams` on `c4bars`, a long position entered
at 10 with stop 7 survives the call and its stop ratchets up to the
guaranteed value `max 7 (close - ATR·stopMultiple)`. -/
theorem c4_trailing_stop_ratchet_witness :
    ∃ s2, (process_bar smallParams ⟨.long 10 7, []⟩ c4bars).pos = .long 10 s2 ∧ (7 : ℚ) ≤ s2 ∧
      (maxLookback smallParams ≤ c4bars.length →
        s2 = max 7 (currentClose c4bars -
          currentATR smallParams c4bars * smallParams.atr_stop_multiple)) ∧
      (c4bars.length < maxLookback smallParams → s2 = 7) :=
  (c4_trailing_stop_ratchet smallParams ⟨.long 10 7, []⟩ c4bars).1 10 7 rfl (by decide!)

theorem foldl_min_replicate (m : ℕ) (a : ℚ) : (List.replicate m a).foldl min a = a := by
  induction m with
  | zero => rfl
  | succ k ih => simpa [List.replicate_succ, min_self] using ih

theorem foldl_max_replicate (m : ℕ) (a : ℚ) : (List.replicate m a).foldl max a = a := by
  induction m with
  | zero => rfl
  | succ k ih => simpa [List.replicate_succ, max_self] using ih

theorem listMin_replicate (m : ℕ) (a : ℚ) : listMin (List.replicate (m + 1) a) = some a := by
  rw [List.replicate_succ]
  simp only [listMin]
  rw [foldl_min_replicate]

theorem listMax_replicate (m : ℕ) (a : ℚ) : listMax (List.replicate (m + 1) a) = some a := by
  rw [List.replicate_succ]
  simp only [listMax]
  rw [foldl_max_replicate]

theorem windowAt_replicate (w i n : ℕ) (a : α) :
    windowAt (List.replicate n a) w i = List.replicate (min (i + 1) n - (i + 1 - w)) a := by
  simp [windowAt, List.take_replicate, List.drop_replicate]

theorem reduceOption_replicate (m : ℕ) (a : α) :
    (List.replicate m (some a)).reduceOption = List.replicate m a := by
  induction m with
  | zero => rfl
  | succ k ih => simp [List.replicate_succ, List.reduceOption_cons_of_some, ih]

theorem rollingMaxO_length (w : ℕ) (xs : List ℚ) : (rollingMaxO w xs).length = xs.length := by
  simp [rollingMaxO]

theorem rollingMaxO_get? (w : ℕ) (xs : List ℚ) {i : ℕ} (h : i < xs.length) :
    (rollingMaxO w xs).get? i =
      some (if i + 1 < w then none else listMax (windowAt xs w i)) := by
  simp only [rollingMaxO]
  exact rangeMap_get? _ h

theorem rollingMinO_get? (w : ℕ) (xs : List ℚ) {i : ℕ} (h : i < xs.length) :
    (rollingMinO w xs).get? i =
      some (if i + 1 < w then none else listMin (windowAt xs w i)) := by
  simp only [rollingMinO]
  exact rangeMap_get? _ h

theorem stochFastK_replicate (n k : ℕ) (c : ℚ) :
    stochFastK (List.replicate n (⟨c, c, c⟩ : Bar)) k = List.replicate n 0 := by
  rw [List.eq_replicate_iff]
  constructor
  · simp [stochFastK]
  · intro b hb
    simp only [stochFastK, List.map_replicate, List.length_replicate, List.mem_map,
      List.mem_range] at hb
    obtain ⟨i, hi, hf⟩ := hb
    subst hf
    by_cases hk : i + 1 < k
    · rw [rollingMaxO_get? k _ (by simpa using hi), rollingMinO_get? k _ (by simpa using hi)]
      simp [hk]
    · by_cases hk0 : k = 0
      · subst hk0
        rw [rollingMaxO_get? 0 _ (by simpa using hi), rollingMinO_get? 0 _ (by simpa using hi)]
        have hw : min (i + 1) n - (i + 1 - 0) = 0 := by omega
        simp [windowAt_replicate, hw, listMax, listMin]
      · obtain ⟨k1, rfl⟩ : ∃ k1, k = k1 + 1 := ⟨k - 1, by omega⟩
        rw [rollingMaxO_get? (k1 + 1) _ (by simpa using hi),
          rollingMinO_get? (k1 + 1) _ (by simpa using hi)]
        have hw : min (i + 1) n - (i + 1 - (k1 + 1)) = k1 + 1 := by omega
        simp only [if_neg hk, windowAt_replicate, hw, listMax_replicate, listMin_replicate,
          Option.join]
        simp

/-- C6.  First conjunct: wherever the `k`-period rolling high/low window is
defined and its range is zero, the raw `%K` value entering the smoothing is
the number `0` - never `NaN` or `±∞` (the series is total by
construction).  Second conjunct (the spec's scenario): on bars with
constant `high = low = close`, the reported slow `%K` is `0` at every valid
index (every index from `smoothing - 1` on). -/
theorem c6_zero_range_stoch :
    (∀ (bars : List Bar) (k i : ℕ) (H L : ℚ),
      (rollingMaxO k (bars.map Bar.high)).get? i = some (some H) →
      (rollingMinO k (bars.map Bar.low)).get? i = some (some L) →
      H - L = 0 →
      (stochFastK bars k).get? i = some 0) ∧
    (∀ (c : ℚ) (n k d s i : ℕ), 1 ≤ s → s - 1 ≤ i → i < n →
      (calculate_stochastic (List.replicate n (⟨c, c, c⟩ : Bar)) k d s).1.get? i =
        some (some 0)) := by
  constructor
  · intro bars k i H L h1 h2 hHL
    have hi : i < bars.length := by
      by_contra hi
      rw [List.get?_eq_none.mpr (by rw [rollingMaxO_length]; simpa using hi)] at h1
      exact Option.noConfusion h1
    simp only [stochFastK]
    rw [rangeMap_get? _ hi]
    rw [h1, h2]
    simp [hHL]
  · intro c n k d s i hs hsi hin
    simp only [calculate_stochastic]
    rw [stochFastK_replicate, List.map_replicate]
    simp only [rollingMeanO, List.length_replicate]
    rw [rangeMap_get? _ hin]
    have hns : ¬(i + 1 < s) := by omega
    have hw : min (i + 1) n - (i + 1 - s) = s := by omega
    simp only [if_neg hns, windowAt_replicate, hw]
    have hall : (List.replicate s (some (0 : ℚ))).all Option.isSome = true := by
      simp [List.all_eq_true, List.mem_replicate]
    rw [if_pos hall, reduceOption_replicate]
    simp

/-- Witness for C6 on five constant bars `high = low = close = 7` with
`k_period = 2`, `d_period = 2`, `smoothing = 3`: the raw `%K` at index 2
(where the 2-bar range is a defined 0) is `0`, and the reported slow `%K`
at the valid index 3 is `0` (not `NaN`). -/
theorem c6_zero_range_stoch_witness :
    (stochFastK (List.replicate 5 (⟨7, 7, 7⟩ : Bar)) 2).get? 2 = some 0 ∧
    (calculate_stochastic (List.replicate 5 (⟨7, 7, 7⟩ : Bar)) 2 2 3).1.get? 3 =
      some (some 0) :=
  ⟨c6_zero_range_stoch.1 (List.replicate 5 (⟨7, 7, 7⟩ : Bar)) 2 2 7 7 (by decide!) (by decide!)
      (by decide!),
   c6_zero_range_stoch.2 7 5 2 2 3 3 (by decide) (by decide) (by decide)⟩

/-- C7 counterexample.  `run_grid_search` is asked to optimize
`max_drawdown`; the evaluated combination's `max_drawdown` metric is
undefined (`NaN`), yet a result row is still added, because
`_evaluate_params` only ever checks the fixed keys `sharpe_ratio` and
`total_return` — the requested optimization metric is never consulted.
This refutes the claim's "only if ... the requested optimization metric is
defined" direction. -/
theorem c7_requested_metric_ignored :
    run_grid_search c7oracle cexBars [] [cexParams] "max_drawdown" =
      [(cexParams, c7metrics)] ∧
    metricGet c7metrics "max_drawdown" = none := by
  constructor
  · decide!
  · decide!

/-- C7 (amended).  A result row for a combination is added if and only if
the combination generated at least one trade signal, the backtest raised no
error, the trade log is non-empty, the equity curve has at least 2 points,
and the two fixed metrics `sharpe_ratio` and `total_return` are defined
(numeric) — regardless of the requested optimization metric; every other
combination is discarded while the remaining grid search continues (the
returned table is exactly the prior rows plus one row per surviving
combination, in order). -/
theorem c7_amended_row_filter (bt : Params → List Bar → Except String BTOutcome)
    (data : List Bar) (results : List (Params × OptMetrics)) (combos : List Params)
    (key : String) :
    run_grid_search bt data results combos key =
      results ++
        combos.filterMap (fun c => (evaluate_params bt data c).map (fun m => (c, m))) ∧
    (∀ c m, evaluate_params bt data c = some m ↔
      ((runHistory c data).signals ≠ [] ∧ ∃ o, bt c data = .ok o ∧ o.tradeLog ≠ [] ∧
        2 ≤ o.equity.length ∧ (metricGet o.metrics "sharpe_ratio").isSome = true ∧
        (metricGet o.metrics "total_return").isSome = true ∧ m = o.metrics)) := by
  refine ⟨run_grid_search_filterMap bt data key combos results, ?_⟩
  intro c m
  simp only [evaluate_params]
  by_cases hsig : (runHistory c data).signals.isEmpty
  · rw [if_pos hsig]
    simp only [List.isEmpty_iff] at hsig
    simp [hsig]
  · rw [if_neg hsig]
    simp only [List.isEmpty_iff] at hsig
    cases hbt : bt c data with
    | error err => simp [hbt]
    | ok o =>
      simp only [hbt]
      by_cases h2 : (o.tradeLog.isEmpty || o.equity.isEmpty ||
          decide (o.equity.length < 2)) = true
      · rw [if_pos h2]
        simp only [Bool.or_eq_true, List.isEmpty_iff, decide_eq_true_eq] at h2
        constructor
        · intro h
          cases h
        · rintro ⟨_, o2, ho2, hlog, hlen, _, _, _⟩
          injection ho2 with ho2
          subst ho2
          rcases h2 with (h2 | h2) | h2
          · exact (hlog h2).elim
          · rw [h2] at hlen
            simp at hlen
          · omega
      · rw [if_neg h2]
        simp only [Bool.or_eq_true, List.isEmpty_iff, decide_eq_true_eq, not_or] at h2
        obtain ⟨⟨hlog, hemp⟩, hlt⟩ := h2
        by_cases h3 : ((metricGet o.metrics "sharpe_ratio").isNone ||
            (metricGet o.metrics "total_return").isNone) = true
        · rw [if_pos h3]
          simp only [Bool.or_eq_true, Option.isNone_iff_eq_none] at h3
          constructor
          · intro h
            cases h
          · rintro ⟨_, o2, ho2, _, _, hs1, hs2, _⟩
            injection ho2 with ho2
            subst ho2
            rcases h3 with h3 | h3
            · rw [h3] at hs1
              cases hs1
            · rw [h3] at hs2
              cases hs2
        · rw [if_neg h3]
          simp only [Bool.or_eq_true, Option.isNone_iff_eq_none, not_or] at h3
          obtain ⟨hs1, hs2⟩ := h3
          constructor
          · intro h
            injection h with h
            subst h
            exact ⟨hsig, o, rfl, hlog, by omega,
              by simp [Option.isSome_iff_ne_none, hs1],
              by simp [Option.isSome_iff_ne_none, hs2], rfl⟩
          · rintro ⟨_, o2, ho2, _, _, _, _, hm⟩
            injection ho2 with ho2
            subst ho2
            rw [hm]

/-- C10.  `StrategyOptimizer` accumulates result rows in `self.results`
across calls: a second `run_grid_search` on the same optimizer state
returns the first call's surviving rows followed by the second call's, and
`get_best_results` ranks over that whole accumulated table rather than only
the most recent search. -/
theorem c10_results_accumulate (bt : Params → List Bar → Except String BTOutcome)
    (data : List Bar) (g1 g2 : List Params) (m1 m2 key : String) (n : ℕ) (asc : Bool) :
    run_grid_search bt data (run_grid_search bt data [] g1 m1) g2 m2 =
      run_grid_search bt data [] g1 m1 ++ run_grid_search bt data [] g2 m2 ∧
    get_best_results (run_grid_search bt data (run_grid_search bt data [] g1 m1) g2 m2)
        n key asc =
      get_best_results (run_grid_search bt data [] g1 m1 ++ run_grid_search bt data [] g2 m2)
        n key asc := by
  have h := run_grid_search_append bt data m2 g2 (run_grid_search bt data [] g1 m1)
  exact ⟨h, by rw [h]⟩

/-- C1 counterexample.  After the first 23 bars of `cexBars` the engine
holds a long position (opened at bar 21); the single `process_bar` call on
the full 24-bar history then appends TWO events — an exit (the bar's low
95 breaches the trailing stop) immediately followed by a fresh long entry
evaluated in the same call — i.e. two position-state transitions in one
call, refuting "at most one transition per call; no entry is evaluated or
emitted in the same call as an exit". -/
theorem c1_single_call_two_events :
    posSide (runHistory cexParams (cexBars.take 23)).pos = some Side.long ∧
    (process_bar cexParams (runHistory cexParams (cexBars.take 23)) cexBars).signals.map
        Signal.kind =
      (runHistory cexParams (cexBars.take 23)).signals.map Signal.kind ++
        [SigType.exit_long, SigType.entry_long] := by
  constructor
  · decide!
  · decide!

end TradingBot
